import Mathlib

/-!
Shallow embedding of the DonorAtlas `trial_helpers` SERP/scrape pipeline
(`src/serp.py`, `src/scrape.py`).

The pure result-processing logic is modelled as Lean functions over explicit
response values: the HTTP layer is abstracted away by passing the decoded
provider response (or a fetch function) as an argument.  Python exceptions
become `Except` values, JSON keys that may be absent become `Option` fields,
and the Python `set` used for deduplication becomes an explicit list of seen
keys.
-/

namespace TrialHelpers

/-- The pydantic model `SerpedSite` from `serp.py`: one organic search hit.
`rich_snippet` and `source` are `Optional` with default `None`. -/
structure SerpedSite where
  url : String
  title : String
  snippet : String
  rich_snippet : Option (List String) := none
  source : Option String := none
deriving DecidableEq, Repr

/-- One raw JSON record of the provider's `organic` array.  A field is `none`
when the corresponding key is absent from the JSON object. -/
structure RawSite where
  link : Option String := none
  title : Option String := none
  snippet : Option String := none
  source : Option String := none
deriving DecidableEq, Repr

/-- The decoded JSON body of a Serper response: `organic` is `none` when the
body has no `organic` key at all. -/
structure SerperResponse where
  organic : Option (List RawSite) := none
deriving DecidableEq, Repr

/-- The response-mapping logic of `fetch_serper` (`serp.py` lines 74-86):
`data.get("organic", [])[:num_sites_per_query]` truncates the organic array,
and each record is mapped with `.get(key, "")` defaults.  The Python slice
`[:n]` for a non-negative `n` is `List.take n`.  The `SerpedSite` constructor
is never passed `rich_snippet`, which therefore keeps its default `None`. -/
def fetch_serper (data : SerperResponse) (num_sites_per_query : Nat) :
    List SerpedSite :=
  ((data.organic.getD []).take num_sites_per_query).map fun site_data =>
    { url := site_data.link.getD ""
      title := site_data.title.getD ""
      snippet := if site_data.snippet.isSome then site_data.snippet.getD "" else ""
      source := some (site_data.source.getD "")
      rich_snippet := none }

/-- The batch fetcher `fetch_serper_batch_by_limit` (`serp.py` lines
89-121): iterate the
queries in order; each call that raises is captured as an error element, each
call that succeeds contributes its site list, and iteration continues.  The
fallible single-query fetch is abstracted as `fetch : String → Except String
(List SerpedSite)`; the `try`/`except` around it is the `match`. -/
def fetch_serper_batch_by_limit
    (fetch : String → Except String (List SerpedSite)) :
    List String → List (Except String (List SerpedSite))
  | [] => []
  | query :: rest =>
    (match fetch query with
      | .ok sites => .ok sites
      | .error e => .error e) :: fetch_serper_batch_by_limit fetch rest

/-- The interlacer `get_in_factor_order` (`serp.py` lines 124-145).  The
source computes
`max_len = max(len(lst) for lst in lists) if lists else 0` (for a non-empty
outer list this equals the fold of `max` with base `0`, lengths being
non-negative), then for `i in range(max_len)` and `lst in lists` appends
`lst[i]` whenever `i < len(lst)`.  The inner loop over `lists` guarded by the
bounds check is `List.filterMap` with `List.get?`. -/
def get_in_factor_order {α : Type} (lists : List (List α)) : List α :=
  let max_len := (lists.map List.length).foldr max 0
  (List.range max_len).flatMap fun i => lists.filterMap fun lst => lst.get? i

/-- The success-partition loop of `serp_and_process` (`serp.py` lines
180-185): failed outcomes are dropped (after printing a diagnostic, a side
effect not modelled), successful site lists are kept in order. -/
def successLists (results : List (Except String (List SerpedSite))) :
    List (List SerpedSite) :=
  results.filterMap fun r =>
    match r with
    | .ok sites => some sites
    | .error _ => none

/-- The deduplication loop of `serp_and_process` (`serp.py` lines 191-196):
walk the interlaced list keeping a `seen` set of urls; a site whose url was
already seen is dropped, otherwise it is kept and its url recorded.  The
Python `set` is modelled as the list of inserted urls. -/
def dedupByUrl : List SerpedSite → List String → List SerpedSite
  | [], _ => []
  | site :: rest, seen =>
    if site.url ∈ seen then dedupByUrl rest seen
    else site :: dedupByUrl rest (site.url :: seen)

/-- The orchestrator `serp_and_process` (`serp.py` lines 148-199):
URL-encode the queries
(encoding abstracted as `encode`), fetch the batch, drop failures, and if any
query succeeded interlace the successful lists and deduplicate by url,
otherwise return the empty list. -/
def serp_and_process (encode : String → String)
    (fetch : String → Except String (List SerpedSite))
    (search_queries : List String) : List SerpedSite :=
  let encoded_queries := search_queries.map encode
  let results := fetch_serper_batch_by_limit fetch encoded_queries
  let fetched_sites_lists := successLists results
  if fetched_sites_lists.isEmpty then []
  else dedupByUrl (get_in_factor_order fetched_sites_lists) []

/-- The two formats accepted by `scrape_url` (`scrape.py`). -/
inductive ScrapeFormat
  | markdown
  | html
deriving DecidableEq, Repr

/-- The literal string of a format. -/
def ScrapeFormat.str : ScrapeFormat → String
  | .markdown => "markdown"
  | .html => "html"

/-- The decoded JSON body of a successful Olostep scrape response: the nested
`result` object, modelled as an association list from field names to string
contents (absent keys are simply not bound). -/
structure ScrapeResponse where
  result : List (String × String)
deriving DecidableEq, Repr

/-- The response-extraction logic of `scrape_url` (`scrape.py` lines 71-72):
`data["result"].get(f"{format}_content")` — look up the `<format>_content`
key in the nested `result` object, `None` when absent. -/
def scrape_url (data : ScrapeResponse) (format : ScrapeFormat) :
    Option String :=
  data.result.lookup (format.str ++ "_content")

/-- Formalisation of the spec's interlacing description (§4.3), written from
the spec's words: for position `i` from `0` to the maximum input-list length
minus one, append the element at position `i` from each list that has one,
visiting the lists in their given order; lists shorter than `i+1` are skipped
at that position. -/
def interlaceSpec {α : Type} (lists : List (List α)) : List α :=
  let maxLen := lists.foldr (fun l m => max l.length m) 0
  ((List.range maxLen).map fun i => lists.filterMap fun lst => lst.get? i).flatten

/-! ### Helper lemmas about the interlacer -/

/-- The `max_len` value computed by `get_in_factor_order`. -/
def maxLen {α : Type} (lists : List (List α)) : Nat :=
  (lists.map List.length).foldr max 0

lemma interlace_eq {α : Type} (lists : List (List α)) :
    get_in_factor_order lists =
      (List.range (maxLen lists)).flatMap fun i =>
        lists.filterMap fun lst => lst.get? i := rfl

lemma length_le_maxLen {α : Type} {l : List α} {lists : List (List α)}
    (h : l ∈ lists) : l.length ≤ maxLen lists := by
  induction lists with
  | nil => simp at h
  | cons a rest ih =>
    rcases List.mem_cons.mp h with rfl | h'
    · exact le_max_left _ _
    · exact le_trans (ih h') (le_max_right _ _)

lemma maxLen_eq_zero_iff {α : Type} (lists : List (List α)) :
    maxLen lists = 0 ↔ ∀ l ∈ lists, l = [] := by
  induction lists with
  | nil => simp [maxLen]
  | cons a rest ih =>
    simp only [maxLen, List.map_cons, List.foldr_cons, Nat.max_eq_zero_iff,
      List.length_eq_zero, List.mem_cons] at *
    constructor
    · rintro ⟨h1, h2⟩ l hl
      rcases hl with rfl | hl
      · exact h1
      · exact ih.mp h2 l hl
    · intro h
      exact ⟨h a (Or.inl rfl), ih.mpr fun l hl => h l (Or.inr hl)⟩

lemma maxLen_map_tail {α : Type} (lists : List (List α)) :
    maxLen (lists.map List.tail) = maxLen lists - 1 := by
  induction lists with
  | nil => rfl
  | cons a rest ih =>
    show max a.tail.length (maxLen (rest.map List.tail)) =
      max a.length (maxLen rest) - 1
    rw [ih, List.length_tail]
    omega

lemma get?_succ_eq_tail_get? {α : Type} (l : List α) (i : Nat) :
    l.get? (i + 1) = l.tail.get? i := by
  cases l <;> rfl

lemma interlace_maxLen_zero {α : Type} (lists : List (List α))
    (h : maxLen lists = 0) : get_in_factor_order lists = [] := by
  rw [interlace_eq, h]
  rfl

lemma filterMap_get?_succ {α : Type} (lists : List (List α)) (i : Nat) :
    (lists.filterMap fun lst => lst.get? (i + 1)) =
      (lists.map List.tail).filterMap fun lst => lst.get? i := by
  rw [List.filterMap_map]
  congr 1
  funext lst
  simp only [Function.comp_apply]
  exact get?_succ_eq_tail_get? lst i

lemma interlace_unfold {α : Type} (lists : List (List α))
    (h : 0 < maxLen lists) :
    get_in_factor_order lists =
      lists.filterMap List.head? ++ get_in_factor_order (lists.map List.tail) := by
  obtain ⟨n, hn⟩ : ∃ n, maxLen lists = n + 1 := ⟨maxLen lists - 1, by omega⟩
  rw [interlace_eq, interlace_eq, maxLen_map_tail, hn]
  simp only [Nat.add_sub_cancel, List.range_succ_eq_map, List.flatMap_cons]
  congr 1
  · congr 1
    funext lst
    cases lst <;> rfl
  · rw [List.flatMap_map]
    simp only [Function.comp, filterMap_get?_succ]

lemma sum_lengths_split {α : Type} (lists : List (List α)) :
    (lists.filterMap List.head?).length +
      ((lists.map List.tail).map List.length).sum =
      (lists.map List.length).sum := by
  induction lists with
  | nil => rfl
  | cons a rest ih =>
    cases a with
    | nil => simpa using ih
    | cons x xs =>
      simp only [List.filterMap_cons, List.head?_cons, List.map_cons,
        List.tail_cons, List.length_cons, List.sum_cons] at *
      omega

lemma interlace_length_aux {α : Type} :
    ∀ (n : Nat) (lists : List (List α)), maxLen lists ≤ n →
      (get_in_factor_order lists).length = (lists.map List.length).sum := by
  intro n
  induction n with
  | zero =>
    intro lists h
    have h0 : maxLen lists = 0 := Nat.le_zero.mp h
    rw [interlace_maxLen_zero lists h0]
    have hall := (maxLen_eq_zero_iff lists).mp h0
    symm
    apply List.sum_eq_zero
    intro x hx
    obtain ⟨l, hl, rfl⟩ := List.mem_map.mp hx
    simp [hall l hl]
  | succ n ih =>
    intro lists h
    by_cases h0 : maxLen lists = 0
    · rw [interlace_maxLen_zero lists h0]
      have hall := (maxLen_eq_zero_iff lists).mp h0
      symm
      apply List.sum_eq_zero
      intro x hx
      obtain ⟨l, hl, rfl⟩ := List.mem_map.mp hx
      simp [hall l hl]
    · rw [interlace_unfold lists (Nat.pos_of_ne_zero h0), List.length_append,
        ih (lists.map List.tail) (by rw [maxLen_map_tail]; omega)]
      exact sum_lengths_split lists

lemma interlace_sublist_aux {α : Type} :
    ∀ (n : Nat) (lists : List (List α)) (l : List α),
      maxLen lists ≤ n → l ∈ lists → l.Sublist (get_in_factor_order lists) := by
  intro n
  induction n with
  | zero =>
    intro lists l h hl
    have h0 := (maxLen_eq_zero_iff lists).mp (Nat.le_zero.mp h) l hl
    subst h0
    exact List.nil_sublist _
  | succ n ih =>
    intro lists l h hl
    cases l with
    | nil => exact List.nil_sublist _
    | cons a t =>
      have hpos : 0 < maxLen lists :=
        lt_of_lt_of_le (by simp) (length_le_maxLen hl)
      rw [interlace_unfold lists hpos]
      have ha : a ∈ lists.filterMap List.head? :=
        List.mem_filterMap.mpr ⟨a :: t, hl, rfl⟩
      have ht : t.Sublist (get_in_factor_order (lists.map List.tail)) := by
        apply ih
        · rw [maxLen_map_tail]; omega
        · exact List.mem_map.mpr ⟨a :: t, hl, rfl⟩
      simpa using List.Sublist.append (List.singleton_sublist.mpr ha) ht

/-! ### Helper lemmas about the deduplication loop -/

lemma dedupByUrl_sublist : ∀ (sites : List SerpedSite) (seen : List String),
    (dedupByUrl sites seen).Sublist sites := by
  intro sites
  induction sites with
  | nil => intro seen; exact List.Sublist.refl _
  | cons site rest ih =>
    intro seen
    simp only [dedupByUrl]
    split
    · exact (ih seen).trans (List.sublist_cons_self _ _)
    · exact (ih _).cons₂ site

lemma dedupByUrl_mem_not_seen : ∀ (sites : List SerpedSite)
    (seen : List String) (s : SerpedSite),
    s ∈ dedupByUrl sites seen → s.url ∉ seen := by
  intro sites
  induction sites with
  | nil => intro seen s hs; simp [dedupByUrl] at hs
  | cons site rest ih =>
    intro seen s hs
    by_cases h : site.url ∈ seen
    · simp only [dedupByUrl, if_pos h] at hs
      exact ih seen s hs
    · simp only [dedupByUrl, if_neg h] at hs
      rcases List.mem_cons.mp hs with rfl | hs'
      · exact h
      · intro hc
        exact ih _ s hs' (List.mem_cons_of_mem _ hc)

lemma dedupByUrl_pairwise : ∀ (sites : List SerpedSite) (seen : List String),
    (dedupByUrl sites seen).Pairwise fun a b => a.url ≠ b.url := by
  intro sites
  induction sites with
  | nil => intro seen; simp [dedupByUrl]
  | cons site rest ih =>
    intro seen
    simp only [dedupByUrl]
    split
    · exact ih seen
    · refine List.Pairwise.cons ?_ (ih _)
      intro b hb hc
      apply dedupByUrl_mem_not_seen rest _ b hb
      rw [← hc]
      exact List.mem_cons_self _ _

lemma dedupByUrl_find? : ∀ (sites : List SerpedSite) (seen : List String)
    (u : String), u ∉ seen →
    (dedupByUrl sites seen).find? (fun s => s.url == u) =
      sites.find? (fun s => s.url == u) := by
  intro sites
  induction sites with
  | nil => intro seen u _; rfl
  | cons site rest ih =>
    intro seen u hu
    by_cases heq : site.url = u
    · have hb : ((fun s : SerpedSite => s.url == u) site = true) :=
        beq_iff_eq.mpr heq
      by_cases h : site.url ∈ seen
      · exact absurd (heq ▸ h) hu
      · simp only [dedupByUrl, if_neg h]
        rw [List.find?_cons_of_pos (p := fun s : SerpedSite => s.url == u) _ hb,
          List.find?_cons_of_pos (p := fun s : SerpedSite => s.url == u) _ hb]
    · have hb : ¬ ((fun s : SerpedSite => s.url == u) site = true) := by
        simp only [beq_iff_eq]
        exact heq
      by_cases h : site.url ∈ seen
      · simp only [dedupByUrl, if_pos h]
        rw [ih seen u hu,
          List.find?_cons_of_neg (p := fun s : SerpedSite => s.url == u) _ hb]
      · simp only [dedupByUrl, if_neg h]
        rw [List.find?_cons_of_neg (p := fun s : SerpedSite => s.url == u) _ hb,
          List.find?_cons_of_neg (p := fun s : SerpedSite => s.url == u) _ hb]
        apply ih
        intro hc
        rcases List.mem_cons.mp hc with rfl | hc'
        · exact heq rfl
        · exact hu hc'

/-! ### Helper lemmas about the batch fetcher and orchestrator -/

lemma fetch_serper_batch_eq_map
    (fetch : String → Except String (List SerpedSite)) (queries : List String) :
    fetch_serper_batch_by_limit fetch queries = queries.map fetch := by
  induction queries with
  | nil => rfl
  | cons q rest ih =>
    simp only [fetch_serper_batch_by_limit, ih, List.map_cons]
    congr 1
    cases fetch q <;> rfl

lemma serp_and_process_eq (encode : String → String)
    (fetch : String → Except String (List SerpedSite))
    (search_queries : List String) :
    serp_and_process encode fetch search_queries =
      dedupByUrl (get_in_factor_order (successLists
        (fetch_serper_batch_by_limit fetch (search_queries.map encode)))) [] := by
  simp only [serp_and_process]
  split
  · rename_i h
    rw [List.isEmpty_iff.mp h]
    rfl
  · rfl

lemma successLists_batch_all_fail (encode : String → String)
    (fetch : String → Except String (List SerpedSite)) :
    ∀ (queries : List String),
      (∀ q ∈ queries, ∃ e, fetch (encode q) = Except.error e) →
      successLists (fetch_serper_batch_by_limit fetch (queries.map encode)) = [] := by
  intro queries
  induction queries with
  | nil => intro _; rfl
  | cons q rest ih =>
    intro h
    obtain ⟨e, he⟩ := h q (List.mem_cons_self _ _)
    simp only [List.map_cons, fetch_serper_batch_by_limit, he, successLists,
      List.filterMap_cons]
    exact ih fun q' hq' => h q' (List.mem_cons_of_mem _ hq')

/-! ### Concrete values used by examples and witnesses -/

/-- A concrete site with url `"a"`. -/
def siteA : SerpedSite := { url := "a", title := "ta", snippet := "" }

/-- A concrete site with url `"b"`. -/
def siteB : SerpedSite := { url := "b", title := "tb", snippet := "" }

/-- A concrete site with url `"c"`. -/
def siteC : SerpedSite := { url := "c", title := "tc", snippet := "" }

/-- A concrete site with url `"d"`. -/
def siteD : SerpedSite := { url := "d", title := "td", snippet := "" }

/-- A concrete site with url `"e"`. -/
def siteE : SerpedSite := { url := "e", title := "te", snippet := "" }

/-- A fetch function for which every query succeeds with sites `a`, `b`. -/
def exFetch : String → Except String (List SerpedSite) :=
  fun _ => .ok [siteA, siteB]

/-- A fetch function for which every query fails. -/
def failFetch : String → Except String (List SerpedSite) :=
  fun _ => .error "boom"

/-- A concrete organic array: first record fully populated, second record
with only a `link` key. -/
def exOrganic : List RawSite :=
  [{ link := some "a", title := some "ta", snippet := some "sa",
     source := some "pa" },
   { link := some "b" }]

/-- A concrete provider response holding `exOrganic`. -/
def exResponse : SerperResponse := { organic := some exOrganic }

/-- A concrete scrape response with a bound `markdown_content` field. -/
def exScrape : ScrapeResponse :=
  { result := [("markdown_content", "hello")] }

/-! ### The claims -/

/-- C1: `get_in_factor_order` performs round-robin merging by rank position:
it agrees with the spec's description (for each position `i` from `0` up to
the maximum input-list length minus one, append the element at position `i`
of each input list that has one, visiting the lists in their given order),
and in particular interlacing `[[a,b],[c,d,e]]` gives `[a,c,b,d,e]`. -/
theorem C1_round_robin_interlace :
    (∀ (lists : List (List SerpedSite)),
      get_in_factor_order lists = interlaceSpec lists) ∧
    get_in_factor_order [[siteA, siteB], [siteC, siteD, siteE]] =
      [siteA, siteC, siteB, siteD, siteE] := by
  constructor
  · intro lists
    simp only [get_in_factor_order, interlaceSpec, List.flatMap_def,
      List.foldr_map]
  · rfl

/-- C2: the output of `serp_and_process` contains no two sites with equal
url, survivors keep their interlaced relative order (the output is a sublist
of the interlaced sequence), and for any url present in the interlaced input
the surviving element is the first one encountered in interlaced order. -/
theorem C2_dedup_invariant (encode : String → String)
    (fetch : String → Except String (List SerpedSite))
    (queries : List String) :
    (serp_and_process encode fetch queries).Pairwise
        (fun a b => a.url ≠ b.url) ∧
    (serp_and_process encode fetch queries).Sublist
        (get_in_factor_order (successLists
          (fetch_serper_batch_by_limit fetch (queries.map encode)))) ∧
    ∀ u, u ∈ (get_in_factor_order (successLists
          (fetch_serper_batch_by_limit fetch (queries.map encode)))).map
            SerpedSite.url →
      (serp_and_process encode fetch queries).find? (fun s => s.url == u) =
        (get_in_factor_order (successLists
          (fetch_serper_batch_by_limit fetch (queries.map encode)))).find?
            (fun s => s.url == u) := by
  rw [serp_and_process_eq]
  refine ⟨dedupByUrl_pairwise _ _, dedupByUrl_sublist _ _, ?_⟩
  intro u _
  exact dedupByUrl_find? _ [] u (by simp)

/-- Witness for C2: with two queries both returning `[a, b]`, the url `"a"`
occurs in the interlaced sequence `[a, a, b, b]` and the survivor in the
deduplicated output is its first interlaced occurrence. -/
theorem C2_witness :
    (serp_and_process id exFetch ["q", "r"]).find? (fun s => s.url == "a") =
      (get_in_factor_order (successLists
        (fetch_serper_batch_by_limit exFetch (["q", "r"].map id)))).find?
          (fun s => s.url == "a") :=
  (C2_dedup_invariant id exFetch ["q", "r"]).2.2 "a" (by decide)

/-- C3: for every list of non-empty input lists, the interlaced output has
length equal to the sum of the input lists' lengths, and each input list's
internal relative order is preserved in the merged output (each input list
is a sublist of it). -/
theorem C3_interlace_length_and_order (lists : List (List SerpedSite))
    (hne : ∀ l ∈ lists, l ≠ []) :
    (get_in_factor_order lists).length = (lists.map List.length).sum ∧
    ∀ l ∈ lists, l.Sublist (get_in_factor_order lists) := by
  refine ⟨interlace_length_aux (maxLen lists) lists le_rfl, ?_⟩
  intro l hl
  exact interlace_sublist_aux (maxLen lists) lists l le_rfl hl

/-- Witness for C3 at the concrete input `[[a,b],[c,d,e]]`. -/
theorem C3_witness :
    (get_in_factor_order [[siteA, siteB], [siteC, siteD, siteE]]).length =
      ([[siteA, siteB], [siteC, siteD, siteE]].map List.length).sum ∧
    ∀ l ∈ [[siteA, siteB], [siteC, siteD, siteE]],
      l.Sublist (get_in_factor_order [[siteA, siteB], [siteC, siteD, siteE]]) :=
  C3_interlace_length_and_order _ (by simp)

/-- C4: `serp_and_process` never raises for individual query failures (the
embedding is a total function): when every query fails it returns the empty
list, and in general it returns the deduplicated interlacing of the
successful queries' result lists only, failed queries being dropped. -/
theorem C4_partial_failure (encode : String → String)
    (fetch : String → Except String (List SerpedSite))
    (queries : List String) :
    ((∀ q ∈ queries, ∃ e, fetch (encode q) = Except.error e) →
      serp_and_process encode fetch queries = []) ∧
    serp_and_process encode fetch queries =
      dedupByUrl (get_in_factor_order (successLists
        (fetch_serper_batch_by_limit fetch (queries.map encode)))) [] := by
  constructor
  · intro h
    rw [serp_and_process_eq, successLists_batch_all_fail encode fetch queries h]
    rfl
  · exact serp_and_process_eq encode fetch queries

/-- Witness for C4: a batch in which both queries fail yields `[]`. -/
theorem C4_witness : serp_and_process id failFetch ["q", "r"] = [] :=
  (C4_partial_failure id failFetch ["q", "r"]).1 (fun _ _ => ⟨"boom", rfl⟩)

/-- C5: the batch fetcher returns exactly one outcome per input query, in
input order, and never raises (the embedding is a total function): the i-th
outcome is exactly the `Except`-valued result of fetching the i-th query,
success outcomes holding that query's site list and failure outcomes the
error's description. -/
theorem C5_batch_one_outcome_per_query
    (fetch : String → Except String (List SerpedSite))
    (queries : List String) :
    (fetch_serper_batch_by_limit fetch queries).length = queries.length ∧
    ∀ i, (fetch_serper_batch_by_limit fetch queries).get? i =
      (queries.get? i).map fetch := by
  rw [fetch_serper_batch_eq_map]
  exact ⟨by simp, fun i => by simp⟩

/-- C6: for a provider response whose organic array has `M` entries and a
non-negative `max_results` `N`, the fetched sequence has exactly `N`
elements when `M ≥ N` and exactly `M` elements when `M < N`. -/
theorem C6_result_count_bound (data : SerperResponse) (org : List RawSite)
    (N : Nat) (h : data.organic = some org) :
    (N ≤ org.length → (fetch_serper data N).length = N) ∧
    (org.length < N → (fetch_serper data N).length = org.length) := by
  have hlen : (fetch_serper data N).length = min N org.length := by
    simp [fetch_serper, h]
  constructor <;> intro h' <;> rw [hlen] <;> omega

/-- Witness for C6 on a 2-entry organic array: truncation at `N = 1` and the
short-response case at `N = 5`. -/
theorem C6_witness :
    (fetch_serper exResponse 1).length = 1 ∧
    (fetch_serper exResponse 5).length = 2 :=
  ⟨(C6_result_count_bound exResponse exOrganic 1 rfl).1 (by decide),
   (C6_result_count_bound exResponse exOrganic 5 rfl).2 (by decide)⟩

/-- C7: every returned site is the field-by-field mapping of the raw record
at the same position of the truncated organic array: `link`→`url`,
`title`→`title`, `snippet`→`snippet` and `source`→`source`, each defaulting
to the empty string when the key is absent, while `rich_snippet` is never
populated and stays unset. -/
theorem C7_field_mapping (data : SerperResponse) (n i : Nat)
    (site : SerpedSite)
    (h : (fetch_serper data n).get? i = some site) :
    ∃ raw, ((data.organic.getD []).take n).get? i = some raw ∧
      site.url = raw.link.getD "" ∧
      site.title = raw.title.getD "" ∧
      site.snippet = raw.snippet.getD "" ∧
      site.source = some (raw.source.getD "") ∧
      site.rich_snippet = none := by
  rw [fetch_serper, List.get?_map] at h
  cases htake : ((data.organic.getD []).take n).get? i with
  | none => rw [htake] at h; simp at h
  | some raw =>
    rw [htake] at h
    simp only [Option.map_some'] at h
    have hsite := Option.some.inj h
    subst hsite
    obtain ⟨l, t, s, src⟩ := raw
    refine ⟨⟨l, t, s, src⟩, rfl, rfl, rfl, ?_, rfl, rfl⟩
    cases s <;> rfl

/-- Witness for C7 at position 1 of `exOrganic`, a record with only a `link`
key, whose mapped site has empty title and snippet, `source` set to the
empty string, and no rich snippet. -/
theorem C7_witness :
    ∃ raw, ((exResponse.organic.getD []).take 2).get? 1 = some raw ∧
      ({ url := "b", title := "", snippet := "",
         source := some "" } : SerpedSite).url = raw.link.getD "" ∧
      ({ url := "b", title := "", snippet := "",
         source := some "" } : SerpedSite).title = raw.title.getD "" ∧
      ({ url := "b", title := "", snippet := "",
         source := some "" } : SerpedSite).snippet = raw.snippet.getD "" ∧
      ({ url := "b", title := "", snippet := "",
         source := some "" } : SerpedSite).source =
          some (raw.source.getD "") ∧
      ({ url := "b", title := "", snippet := "",
         source := some "" } : SerpedSite).rich_snippet = none :=
  C7_field_mapping exResponse 2 1
    { url := "b", title := "", snippet := "", source := some "" } rfl

/-- C8: the interlacer is total on empty input: no lists at all, or only
lists that are all empty, give the empty output. -/
theorem C8_interlace_empty :
    get_in_factor_order ([] : List (List SerpedSite)) = [] ∧
    ∀ (lists : List (List SerpedSite)), (∀ l ∈ lists, l = []) →
      get_in_factor_order lists = [] := by
  refine ⟨rfl, ?_⟩
  intro lists h
  exact interlace_maxLen_zero lists ((maxLen_eq_zero_iff lists).mpr h)

/-- Witness for C8 with two empty input lists. -/
theorem C8_witness :
    get_in_factor_order ([[], []] : List (List SerpedSite)) = [] :=
  C8_interlace_empty.2 [[], []] (by simp)

/-- C9: `scrape_url` returns the content bound to the `<format>_content` key
of the nested result object when that key is present, and `none` (no
content, rather than a failure) when the key is absent. -/
theorem C9_scrape_extraction (data : ScrapeResponse)
    (format : ScrapeFormat) :
    ((format.str ++ "_content") ∉ data.result.map Prod.fst →
      scrape_url data format = none) ∧
    ((format.str ++ "_content") ∈ data.result.map Prod.fst →
      ∃ c, scrape_url data format = some c ∧
        (format.str ++ "_content", c) ∈ data.result) := by
  constructor
  · intro h
    apply List.lookup_eq_none_iff.mpr
    intro p hp
    simp only [bne_iff_ne, ne_eq]
    intro hc
    exact h (hc ▸ List.mem_map_of_mem Prod.fst hp)
  · intro h
    have hsome : (data.result.lookup ((format.str ++ "_content"))).isSome := by
      apply List.lookup_isSome_iff.mpr
      obtain ⟨p, hp, hfst⟩ := List.mem_map.mp h
      exact ⟨p, hp, beq_iff_eq.mpr hfst.symm⟩
    obtain ⟨c, hc⟩ := Option.isSome_iff_exists.mp hsome
    refine ⟨c, hc, ?_⟩
    obtain ⟨l₁, l₂, heq, -⟩ := List.lookup_eq_some_iff.mp hc
    rw [heq]
    exact List.mem_append_right _ (List.mem_cons_self _ _)

/-- Witness for C9: an empty result object gives `none`; `exScrape` binds
`markdown_content`, which is extracted. -/
theorem C9_witness :
    scrape_url { result := [] } ScrapeFormat.markdown = none ∧
    ∃ c, scrape_url exScrape ScrapeFormat.markdown = some c ∧
      (ScrapeFormat.markdown.str ++ "_content", c) ∈ exScrape.result :=
  ⟨(C9_scrape_extraction { result := [] } .markdown).1 (by simp),
   (C9_scrape_extraction exScrape .markdown).2 (by decide)⟩

/-- C10: when the response body has no `organic` key at all, `fetch_serper`
returns the empty list rather than failing, and the batch fetcher therefore
reports each such query as a success outcome with zero results. -/
theorem C10_missing_organic (data : SerperResponse) (n : Nat)
    (h : data.organic = none) :
    fetch_serper data n = [] ∧
    ∀ (queries : List String),
      fetch_serper_batch_by_limit
          (fun _ => Except.ok (fetch_serper data n)) queries =
        queries.map fun _ => Except.ok ([] : List SerpedSite) := by
  have h1 : fetch_serper data n = [] := by simp [fetch_serper, h]
  refine ⟨h1, ?_⟩
  intro queries
  rw [fetch_serper_batch_eq_map]
  simp [h1]

/-- Witness for C10 on the response with no organic key. -/
theorem C10_witness : fetch_serper { organic := none } 5 = [] :=
  (C10_missing_organic { organic := none } 5 rfl).1

end TrialHelpers
